import Mathlib

/-!
Verification of the iytdl `upload_lib` package (files `functions.py` and
`uploader.py`) against its natural-language specification.

The Python code is shallowly embedded: paths are pairs of directory and file
name, external processes (ffmpeg, ffprobe, mutagen, PIL, hachoir, the
Telegram transport) are oracles passed as explicit parameters, and Python
exceptions are values of an error type returned through `Except`.
-/

/-! ## Python string primitives -/

/-- Python lexicographic `<` on strings, by Unicode code point, as used by
`sorted()`: at the first differing position the smaller code point wins, and
a proper prefix is smaller than the longer string. -/
def pyCharListLt : List Char → List Char → Bool
  | _, [] => false
  | [], _ :: _ => true
  | a :: as, b :: bs => a.toNat < b.toNat || (a.toNat == b.toNat && pyCharListLt as bs)

/-- Quote characters removed by `unquote_filename`: `'` (code 39) and `"`
(code 34), i.e. the regex class in `re.sub(r"[\"']", "", file.name)`. -/
def isQuoteChar (c : Char) : Bool := c.toNat == 39 || c.toNat == 34

/-- Model of `re.sub(r"[\"']", "", s)`: delete every quote character. -/
def removeQuotes (s : String) : String := ⟨s.data.filter (fun c => !(isQuoteChar c))⟩

/-- Model of Python `str.lower()` (ASCII-faithful, which covers this code's
extension comparisons). -/
def pyLower (s : String) : String := ⟨s.data.map Char.toLower⟩

/-- Model of Python `str.endswith(e)` for a single candidate. -/
def pyEndsWith (s e : String) : Bool := e.data.isSuffixOf s.data

/-- Model of Python `str.endswith(tuple)`: true if any candidate matches. -/
def pyEndsWithAny (s : String) (exts : List String) : Bool :=
  exts.any (fun e => pyEndsWith s e)

/-- Decimal digits of `n`, least significant first, with explicit structural
fuel (`n` itself is always enough fuel). -/
def natToDigitsAux : Nat → Nat → List Nat
  | 0, _ => []
  | fuel + 1, n => if n = 0 then [] else (n % 10) :: natToDigitsAux fuel (n / 10)

/-- Model of Python `str(n)` for a non-negative integer. -/
def pyStrNat (n : Nat) : String :=
  if n = 0 then "0" else ⟨((natToDigitsAux n n).reverse.map Nat.digitChar)⟩

/-- Model of Python `str.zfill(w)` for the non-negative numerals used here:
pad on the left with `0` up to width `w`. -/
def pyZfill (w : Nat) (s : String) : String :=
  ⟨List.replicate (w - s.data.length) '0' ++ s.data⟩

/-- Index of the last `.` in a character list, if any. -/
def lastDotIdx (cs : List Char) : Option Nat :=
  (cs.reverse.findIdx? (fun c => c == '.')).map (fun k => cs.length - 1 - k)

/-- Position where `pathlib` splits `name` into stem and extension:
the last dot, provided it is neither the first nor the last character. -/
def pySplitExtIdx (name : String) : Option Nat :=
  match lastDotIdx name.data with
  | some i => if 0 < i ∧ i < name.data.length - 1 then some i else none
  | none => none

/-- Model of `pathlib.Path(...).stem`. -/
def pyStem (name : String) : String :=
  match pySplitExtIdx name with
  | some i => ⟨name.data.take i⟩
  | none => name

/-- Model of `pathlib.Path(...).suffix` (the file extension, dot included). -/
def pySuffix (name : String) : String :=
  match pySplitExtIdx name with
  | some i => ⟨name.data.drop i⟩
  | none => ""

/-! ## Paths and `unquote_filename` -/

/-- A filesystem path, split as `pathlib` sees it: the parent directory and
the final name component.  The code only ever renames within the parent and
all paths of interest are already absolute, so `Path.absolute()` is the
identity in this model. -/
structure PyPath where
  dir : String
  name : String
deriving DecidableEq, Repr

/-- Rendering of a path as the string `dir/name` (used for sort keys and for
`str(path)`). -/
def pathKey (p : PyPath) : List Char := p.dir.data ++ '/' :: p.name.data

/-- Model of `str(path)`. -/
def pathStr (p : PyPath) : String := ⟨pathKey p⟩

/-- Result of `unquote_filename`: the returned path, plus whether an on-disk
rename was performed. -/
structure RenameResult where
  path : PyPath
  renamed : Bool
deriving DecidableEq, Repr

/-- Model of `functions.unquote_filename`: strip single and double quotes
from the name component; rename (within the same directory) exactly when the
stripped name differs; return the resulting absolute path. -/
def unquote_filename (file : PyPath) : RenameResult :=
  let un_quoted : PyPath := ⟨file.dir, removeQuotes file.name⟩
  if file.name ≠ un_quoted.name then ⟨un_quoted, true⟩ else ⟨file, false⟩

/-! ### Facts about quote removal -/

theorem removeQuotes_no_quote (s : String) :
    ∀ c ∈ (removeQuotes s).data, isQuoteChar c = false := by
  intro c hc
  have := List.of_mem_filter (p := fun c => !(isQuoteChar c)) hc
  simpa using this

theorem removeQuotes_idem (s : String) :
    removeQuotes (removeQuotes s) = removeQuotes s := by
  unfold removeQuotes
  simp [List.filter_filter]

theorem removeQuotes_eq_self_of_clean {s : String}
    (h : ∀ c ∈ s.data, isQuoteChar c = false) : removeQuotes s = s := by
  unfold removeQuotes
  have : s.data.filter (fun c => !(isQuoteChar c)) = s.data := by
    apply List.filter_eq_self.mpr
    intro c hc
    simp [h c hc]
  simp [this]

/-- C7: sanitization facts bundled: (1) re-sanitizing the returned path is a
no-op (idempotence, with no second rename), (2) the returned name contains no
quote characters, (3) an already-clean name is returned unchanged with no
rename, (4) the directory component is never changed. -/
theorem unquote_filename_spec (f : PyPath) :
    (unquote_filename (unquote_filename f).path = ⟨(unquote_filename f).path, false⟩)
    ∧ (∀ c ∈ (unquote_filename f).path.name.data, isQuoteChar c = false)
    ∧ (removeQuotes f.name = f.name → unquote_filename f = ⟨f, false⟩)
    ∧ (unquote_filename f).path.dir = f.dir := by
  have key : (unquote_filename f).path = ⟨f.dir, removeQuotes f.name⟩ := by
    unfold unquote_filename
    by_cases h : f.name = removeQuotes f.name
    · simp [← h]
    · simp [Ne.symm h, h]
  refine ⟨?_, ?_, ?_, ?_⟩
  · rw [key]
    unfold unquote_filename
    simp [removeQuotes_idem]
  · rw [key]
    exact removeQuotes_no_quote _
  · intro hclean
    unfold unquote_filename
    simp [hclean]
  · rw [key]

/-- Witness for C7 at a concrete quoted file name. -/
theorem unquote_filename_spec_witness :
    unquote_filename ⟨"/downloads/key1", "movie.mkv"⟩ = ⟨⟨"/downloads/key1", "movie.mkv"⟩, false⟩ :=
  (unquote_filename_spec ⟨"/downloads/key1", "movie.mkv"⟩).2.2.1 (by decide)

/-! ## `split_video` -/

/-- The per-part byte cap of `split_video`: `1.5 * 1024 * 1024 * 1024`. -/
def splitSize : Nat := 1610612736

/-- Model of `ceil(file_size / split_size)`.  (For any part count that can
arise here the Python float division is exact enough that `ceil` agrees with
the integer ceiling.) -/
def partsCount (S : Nat) : Nat := (S + (splitSize - 1)) / splitSize

/-- Name of the candidate part `no`:
`"{name}.part{no}{ext}"` with the ordinal zero-filled to width 3. -/
def partFileName (name : String) (no : Nat) : String :=
  pyStem name ++ ".part" ++ pyZfill 3 (pyStrNat no) ++ pySuffix name

/-- One-at-a-time loop of `split_video` (`while start <= parts`), expressed
by structural recursion on the number of remaining iterations.  `ok i` is
the oracle for "ffmpeg exited 0 and the output file exists" for part `i`,
and `durOf i` is the probed duration of part `i` (it only advances the seek
offset and never affects the returned list).  A successful part is
sanitized with `unquote_filename` and appended to the accumulator. -/
def splitLoop (file : PyPath) (ok : Nat → Bool) (durOf : Nat → Nat) :
    Nat → Nat → Nat → List PyPath → List PyPath
  | 0, _, _, acc => acc
  | left + 1, start, curDur, acc =>
      let new_file : PyPath := ⟨file.dir, partFileName file.name start⟩
      let acc1 := if ok start then acc ++ [(unquote_filename new_file).path] else acc
      splitLoop file ok durOf left (start + 1) (curDur + durOf start) acc1

/-- Python string `<=`, in `Prop` form, used to model `sorted()`. -/
def charListLe (a b : List Char) : Prop := pyCharListLt b a = false

/-- Path comparison used by `sorted()` on `pathlib.Path` values (all paths
here share the parent directory, so comparison of the rendered strings is
the order `sorted` actually uses). -/
def pathLe (a b : PyPath) : Prop := charListLe (pathKey a) (pathKey b)

instance : DecidableRel pathLe := fun a b => by
  unfold pathLe charListLe; infer_instance

/-- Model of Python `sorted()` on paths: a stable ascending sort. -/
def pySortPaths (l : List PyPath) : List PyPath := l.insertionSort pathLe

/-- String comparison in `Prop` form for `sorted()` on strings. -/
def strLe (a b : String) : Prop := charListLe a.data b.data

instance : DecidableRel strLe := fun a b => by
  unfold strLe charListLe; infer_instance

/-- Model of Python `sorted()` on strings. -/
def pySortStrings (l : List String) : List String := l.insertionSort strLe

/-- Model of `functions.split_video`: compute the part count from the byte
size, run the part loop from ordinal 1 with zero initial offset, and return
the successful parts sorted by file name. -/
def split_video (file : PyPath) (S : Nat) (ok : Nat → Bool) (durOf : Nat → Nat) :
    List PyPath :=
  pySortPaths (splitLoop file ok durOf (partsCount S) 1 0 [])

/-! ### Lexicographic comparison lemmas -/

theorem pyCharListLt_append_same (p u v : List Char) :
    pyCharListLt (p ++ u) (p ++ v) = pyCharListLt u v := by
  induction p with
  | nil => rfl
  | cons a p ih => simp [pyCharListLt, ih]

theorem pyCharListLt_append_of_lt {u v : List Char} (s t : List Char)
    (hlen : u.length = v.length) (h : pyCharListLt u v = true) :
    pyCharListLt (u ++ s) (v ++ t) = true := by
  induction u generalizing v with
  | nil =>
    cases v with
    | nil => simp [pyCharListLt] at h
    | cons b bs => simp at hlen
  | cons a as ih =>
    cases v with
    | nil => simp at hlen
    | cons b bs =>
      simp only [pyCharListLt, Bool.or_eq_true, Bool.and_eq_true, beq_iff_eq,
        decide_eq_true_eq] at h
      simp only [List.cons_append, pyCharListLt, Bool.or_eq_true, Bool.and_eq_true,
        beq_iff_eq, decide_eq_true_eq]
      rcases h with h | ⟨heq, hrec⟩
      · exact Or.inl h
      · exact Or.inr ⟨heq, ih (by simpa using hlen) hrec⟩

theorem pyCharListLt_asymm : ∀ {u v : List Char},
    pyCharListLt u v = true → pyCharListLt v u = false := by
  intro u
  induction u with
  | nil =>
    intro v h
    cases v with
    | nil => simp [pyCharListLt] at h
    | cons b bs => rfl
  | cons a as ih =>
    intro v h
    cases v with
    | nil => simp [pyCharListLt] at h
    | cons b bs =>
      simp only [pyCharListLt, Bool.or_eq_true, Bool.and_eq_true, beq_iff_eq,
        decide_eq_true_eq] at h
      have hlt : ¬ (b.toNat < a.toNat) := by
        rcases h with h | ⟨heq, _⟩ <;> omega
      rcases h with h | ⟨heq, hrec⟩
      · have hne : (b.toNat == a.toNat) = false := by
          simp only [beq_eq_false_iff_ne, ne_eq]
          omega
        simp [pyCharListLt, hlt, hne]
      · simp [pyCharListLt, hlt, ih hrec]

/-! ### Decimal rendering lemmas -/

theorem natToDigitsAux_zero (f : Nat) : natToDigitsAux f 0 = [] := by
  cases f <;> simp [natToDigitsAux]

theorem natToDigitsAux_step {f n : Nat} (h0 : 0 < n) (hf : n ≤ f) :
    natToDigitsAux f n = (n % 10) :: natToDigitsAux (f - 1) (n / 10) := by
  cases f with
  | zero => omega
  | succ k =>
    have hn : ¬ n = 0 := by omega
    simp [natToDigitsAux, hn]

/-- Fuel does not matter as long as it is sufficient. -/
theorem natToDigitsAux_fuel : ∀ {f g n : Nat}, n ≤ f → n ≤ g →
    natToDigitsAux f n = natToDigitsAux g n := by
  intro f
  induction f using Nat.strong_induction_on with
  | _ f ih =>
    intro g n hf hg
    by_cases h0 : 0 < n
    · have hdiv : n / 10 < n := Nat.div_lt_self h0 (by norm_num)
      rw [natToDigitsAux_step h0 hf, natToDigitsAux_step h0 hg]
      congr 1
      cases f with
      | zero => omega
      | succ k => exact ih k (by omega) (by omega) (by omega)
    · have : n = 0 := by omega
      subst this
      rw [natToDigitsAux_zero, natToDigitsAux_zero]

/-- Zero-filled three-character form of `str(n).zfill(3)` for `0 < n ≤ 999`. -/
theorem pyZfill_pyStrNat_three {n : Nat} (h1 : 0 < n) (h2 : n < 1000) :
    (pyZfill 3 (pyStrNat n)).data =
      [Nat.digitChar (n / 100), Nat.digitChar (n / 10 % 10), Nat.digitChar (n % 10)] := by
  have hn0 : ¬ n = 0 := by omega
  have hd : pyStrNat n = ⟨((natToDigitsAux n n).reverse.map Nat.digitChar)⟩ := by
    simp [pyStrNat, hn0]
  have step1 : natToDigitsAux n n = (n % 10) :: natToDigitsAux (n - 1) (n / 10) :=
    natToDigitsAux_step h1 le_rfl
  by_cases c1 : n < 10
  · have hq : n / 10 = 0 := by omega
    have : natToDigitsAux n n = [n % 10] := by
      rw [step1, hq, natToDigitsAux_zero]
    rw [hd, this]
    have e1 : n / 100 = 0 := by omega
    have e2 : n / 10 % 10 = 0 := by omega
    simp only [pyZfill, e1, e2]
    simp [List.replicate]
    decide
  · by_cases c2 : n < 100
    · have h10 : 0 < n / 10 := by omega
      have step2 : natToDigitsAux (n - 1) (n / 10) =
          ((n / 10) % 10) :: natToDigitsAux (n - 1 - 1) (n / 10 / 10) := by
        apply natToDigitsAux_step h10
        omega
      have hq : n / 10 / 10 = 0 := by
        rw [Nat.div_div_eq_div_mul]; omega
      have : natToDigitsAux n n = [n % 10, n / 10 % 10] := by
        rw [step1, step2, hq, natToDigitsAux_zero]
      rw [hd, this]
      have e1 : n / 100 = 0 := by omega
      simp only [pyZfill, e1]
      simp [List.replicate]
      decide
    · have h10 : 0 < n / 10 := by omega
      have h100 : 0 < n / 100 := by omega
      have hdd : n / 10 / 10 = n / 100 := by rw [Nat.div_div_eq_div_mul]
      have step2 : natToDigitsAux (n - 1) (n / 10) =
          ((n / 10) % 10) :: natToDigitsAux (n - 1 - 1) (n / 100) := by
        rw [natToDigitsAux_step h10 (by omega), hdd]
      have step3 : natToDigitsAux (n - 1 - 1) (n / 100) =
          ((n / 100) % 10) :: natToDigitsAux (n - 1 - 1 - 1) (n / 100 / 10) := by
        apply natToDigitsAux_step h100
        omega
      have hq : n / 100 / 10 = 0 := by
        rw [Nat.div_div_eq_div_mul]; omega
      have e3 : n / 100 % 10 = n / 100 := by omega
      have : natToDigitsAux n n = [n % 10, n / 10 % 10, n / 100] := by
        rw [step1, step2, step3, hq, natToDigitsAux_zero, e3]
      rw [hd, this]
      simp [pyZfill]

theorem digitChar_toNat_mono : ∀ a < 10, ∀ b < 10, a < b →
    (Nat.digitChar a).toNat < (Nat.digitChar b).toNat := by decide

theorem digitChar_not_quote : ∀ d < 10, isQuoteChar (Nat.digitChar d) = false := by decide

/-- Strict comparison of zero-filled ordinals agrees with numeric order in
the range `1..999`. -/
theorem partNum_lt {m n : Nat} (h1 : 0 < m) (hmn : m < n) (h2 : n ≤ 999) :
    pyCharListLt (pyZfill 3 (pyStrNat m)).data (pyZfill 3 (pyStrNat n)).data = true := by
  rw [pyZfill_pyStrNat_three h1 (by omega), pyZfill_pyStrNat_three (by omega) (by omega)]
  have hm2 : m % 10 < 10 := Nat.mod_lt _ (by norm_num)
  have hn2 : n % 10 < 10 := Nat.mod_lt _ (by norm_num)
  have hm1 : m / 10 % 10 < 10 := Nat.mod_lt _ (by norm_num)
  have hn1 : n / 10 % 10 < 10 := Nat.mod_lt _ (by norm_num)
  have hm0 : m / 100 < 10 := by omega
  have hn0 : n / 100 < 10 := by omega
  by_cases cA : m / 100 < n / 100
  · have := digitChar_toNat_mono _ hm0 _ hn0 cA
    simp [pyCharListLt, this]
  · have eA : m / 100 = n / 100 := by
      have : m / 100 ≤ n / 100 := Nat.div_le_div_right (le_of_lt hmn)
      omega
    by_cases cB : m / 10 % 10 < n / 10 % 10
    · have := digitChar_toNat_mono _ hm1 _ hn1 cB
      simp [pyCharListLt, eA, this]
    · have eB : m / 10 % 10 = n / 10 % 10 := by omega
      have cC : m % 10 < n % 10 := by omega
      have := digitChar_toNat_mono _ hm2 _ hn2 cC
      simp [pyCharListLt, eA, eB, this]

/-! ### `split_video` returns the successful parts in ordinal order -/

theorem unquote_filename_path (f : PyPath) :
    (unquote_filename f).path = ⟨f.dir, removeQuotes f.name⟩ := by
  unfold unquote_filename
  by_cases h : f.name = removeQuotes f.name
  · simp [← h]
  · simp [Ne.symm h, h]

theorem removeQuotes_partFileName (name : String) {i : Nat} (h1 : 0 < i) (h2 : i ≤ 999) :
    (removeQuotes (partFileName name i)).data =
      (removeQuotes (pyStem name)).data ++ (".part").data
        ++ (pyZfill 3 (pyStrNat i)).data ++ (removeQuotes (pySuffix name)).data := by
  have hz : (pyZfill 3 (pyStrNat i)).data.filter (fun c => !(isQuoteChar c)) =
      (pyZfill 3 (pyStrNat i)).data := by
    apply List.filter_eq_self.mpr
    intro c hc
    rw [pyZfill_pyStrNat_three h1 (by omega)] at hc
    simp only [List.mem_cons, List.not_mem_nil, or_false] at hc
    rcases hc with h | h | h
    · subst h; simp [digitChar_not_quote (i / 100) (by omega)]
    · subst h; simp [digitChar_not_quote (i / 10 % 10) (by omega)]
    · subst h; simp [digitChar_not_quote (i % 10) (by omega)]
  have hpart : (".part").data.filter (fun c => !(isQuoteChar c)) = (".part").data := by
    decide
  unfold partFileName removeQuotes
  simp only [String.data_append, List.filter_append, hz, hpart]

theorem partKey_lt (dirS name : String) {i j : Nat}
    (h1 : 0 < i) (hij : i < j) (h2 : j ≤ 999) :
    pyCharListLt (pathKey (unquote_filename ⟨dirS, partFileName name i⟩).path)
      (pathKey (unquote_filename ⟨dirS, partFileName name j⟩).path) = true := by
  rw [unquote_filename_path, unquote_filename_path]
  show pyCharListLt (dirS.data ++ '/' :: (removeQuotes (partFileName name i)).data)
      (dirS.data ++ '/' :: (removeQuotes (partFileName name j)).data) = true
  rw [removeQuotes_partFileName name h1 (by omega),
      removeQuotes_partFileName name (by omega) h2]
  have shape : ∀ k : Nat,
      dirS.data ++ '/' :: ((removeQuotes (pyStem name)).data ++ (".part").data
          ++ (pyZfill 3 (pyStrNat k)).data ++ (removeQuotes (pySuffix name)).data) =
        (dirS.data ++ '/' :: ((removeQuotes (pyStem name)).data ++ (".part").data))
          ++ ((pyZfill 3 (pyStrNat k)).data ++ (removeQuotes (pySuffix name)).data) := by
    intro k
    simp [List.append_assoc]
  rw [shape i, shape j, pyCharListLt_append_same]
  apply pyCharListLt_append_of_lt
  · rw [pyZfill_pyStrNat_three h1 (by omega),
      pyZfill_pyStrNat_three (by omega : 0 < j) (by omega)]
    rfl
  · exact partNum_lt h1 hij h2

theorem splitLoop_eq (file : PyPath) (ok : Nat → Bool) (durOf : Nat → Nat) :
    ∀ (left start curDur : Nat) (acc : List PyPath),
    splitLoop file ok durOf left start curDur acc =
      acc ++ ((List.range' start left).filter ok).map
        (fun i => (unquote_filename ⟨file.dir, partFileName file.name i⟩).path) := by
  intro left
  induction left with
  | zero =>
    intro start curDur acc
    simp [splitLoop]
  | succ k ih =>
    intro start curDur acc
    rw [splitLoop, ih, List.range'_succ, List.filter_cons]
    by_cases hok : ok start
    · simp [hok, List.append_assoc]
    · simp [hok]

theorem range'_pairwise_lt (n : Nat) : ∀ s : Nat, (List.range' s n).Pairwise (· < ·) := by
  induction n with
  | zero => intro s; simp
  | succ k ih =>
    intro s
    rw [List.range'_succ]
    refine List.Pairwise.cons ?_ (ih (s + 1))
    intro m hm
    have := (List.mem_range'_1.mp hm).1
    omega

/-- C6: `split_video` attempts `ceil(S / splitSize)` candidate parts with
contiguous ordinals `1, 2, ...`, each named with the zero-filled 3-digit
ordinal; parts whose transcode fails are omitted (the loop continues); and
the final name-sort is the identity on the remaining parts, reproducing
ordinal order.  The second conjunct checks that `partsCount` really is the
ceiling of `S / splitSize`. -/
theorem split_video_ordering (file : PyPath) (S : Nat) (ok : Nat → Bool)
    (durOf : Nat → Nat) (hS : 0 < S) (hp : partsCount S ≤ 999) :
    split_video file S ok durOf =
      ((List.range' 1 (partsCount S)).filter ok).map
        (fun i => (unquote_filename ⟨file.dir, partFileName file.name i⟩).path)
    ∧ splitSize * (partsCount S - 1) < S ∧ S ≤ splitSize * partsCount S := by
  constructor
  · unfold split_video pySortPaths
    rw [splitLoop_eq, List.nil_append]
    apply List.Sorted.insertionSort_eq
    have base : (List.range' 1 (partsCount S)).Pairwise (· < ·) :=
      range'_pairwise_lt (partsCount S) 1
    have filt : ((List.range' 1 (partsCount S)).filter ok).Pairwise (· < ·) :=
      List.Pairwise.filter ok base
    have step : ((List.range' 1 (partsCount S)).filter ok).Pairwise
        (fun i j => pathLe ((fun i => (unquote_filename ⟨file.dir, partFileName file.name i⟩).path) i)
          ((fun i => (unquote_filename ⟨file.dir, partFileName file.name i⟩).path) j)) := by
      refine filt.imp_of_mem ?_
      intro a b ha hb hab
      have ha' := List.mem_range'_1.mp (List.mem_of_mem_filter ha)
      have hb' := List.mem_range'_1.mp (List.mem_of_mem_filter hb)
      show charListLe _ _
      unfold charListLe
      exact pyCharListLt_asymm (partKey_lt file.dir file.name (by omega) hab (by omega))
    exact List.pairwise_map.mpr step
  · show 1610612736 * ((S + (1610612736 - 1)) / 1610612736 - 1) < S
      ∧ S ≤ 1610612736 * ((S + (1610612736 - 1)) / 1610612736)
    omega

/-- Witness for C6: a 4 000 000 000-byte video yields 3 attempted parts;
with part 2 failing, the result is parts 1 and 3 in ordinal order. -/
theorem split_video_ordering_witness :
    split_video ⟨"/dl/key", "movie.mkv"⟩ 4000000000 (fun i => !(i == 2)) (fun _ => 100) =
      ((List.range' 1 (partsCount 4000000000)).filter (fun i => !(i == 2))).map
        (fun i => (unquote_filename ⟨"/dl/key", partFileName "movie.mkv" i⟩).path) :=
  (split_video_ordering ⟨"/dl/key", "movie.mkv"⟩ 4000000000 (fun i => !(i == 2))
    (fun _ => 100) (by decide) (by decide)).1

/-! ## Python exceptions -/

/-- Exceptions the embedded code can raise: `TypeError` and
`FileNotFoundError` are raised explicitly by `find_media`; `KeyError` is
what `dict.pop` raises on a missing key; `AttributeError` is what
`None.has(...)` raises; `imageError` stands for a PIL decode failure
escaping `Image.open`. -/
inductive PyErr where
  | typeError
  | fileNotFoundError
  | keyError
  | attributeError
  | imageError
deriving DecidableEq, Repr

/-! ## `thumb_from_audio` -/

/-- An embedded picture payload: `decodeOk` records whether PIL can decode
the bytes (a failed decode raises out of `thumb_from_audio`). -/
structure AlbumArt where
  decodeOk : Bool
deriving DecidableEq, Repr

/-- One mutagen tag entry: its key and the value's `data` attribute
(`none` when the attribute is missing or falsy). -/
structure AudioFrame where
  key : String
  data : Option AlbumArt
deriving DecidableEq, Repr

/-- Contiguous-substring test on character lists. -/
def listIsInfix : List Char → List Char → Bool
  | needle, [] => needle.isEmpty
  | needle, c :: rest => needle.isPrefixOf (c :: rest) || listIsInfix needle rest

/-- Model of Python `"APIC" in key`. -/
def hasAPIC (key : String) : Bool := listIsInfix ("APIC").data key.data

/-- The `for key in audio_id3.keys()` loop with its `break`: the `data` of
the first frame whose key contains `APIC` and whose data is truthy. -/
def thumbFrameLoop : List AudioFrame → Option AlbumArt
  | [] => none
  | f :: fs => if hasAPIC f.key && f.data.isSome then f.data else thumbFrameLoop fs

/-- Model of `functions.thumb_from_audio`.  Inputs: the parsed tags
(`none` when `mutagen.File` is falsy), whether `album_art.jpg` already
exists in the directory, and the directory.  Output: the Python return
value, paired with whether the thumbnail file was actually written by this
call.  Mirrors the source exactly: `thumb_path` is assigned *before* the
loop, so the final `thumb_path.is_file()` check also succeeds when an
`album_art.jpg` merely pre-exists. -/
def thumb_from_audio (tags : Option (List AudioFrame)) (preExisting : Bool)
    (dir : String) : Except PyErr (Option String) × Bool :=
  match tags with
  | none => (.ok none, false)
  | some frames =>
    match thumbFrameLoop frames with
    | some art =>
      if art.decodeOk then (.ok (some (dir ++ "/album_art.jpg")), true)
      else (.error .imageError, false)
    | none =>
      ((if preExisting then .ok (some (dir ++ "/album_art.jpg")) else .ok none), false)

theorem thumbFrameLoop_eq_find (frames : List AudioFrame) :
    thumbFrameLoop frames =
      (frames.find? (fun f => hasAPIC f.key && f.data.isSome)).bind AudioFrame.data := by
  induction frames with
  | nil => rfl
  | cons f fs ih =>
    cases h : (hasAPIC f.key && f.data.isSome) with
    | true => simp [thumbFrameLoop, List.find?_cons, h]
    | false => simp [thumbFrameLoop, List.find?_cons, h, ih]

/-- C8 (amended): `thumb_from_audio` returns a path iff it actually wrote
the thumbnail from an embedded picture frame, **or** no embedded picture
frame exists but an `album_art.jpg` already sits in the directory; and it
actually writes iff the first embedded-picture frame decodes.  (A decode
failure raises, and is recorded as an error, not as "nothing".) -/
theorem thumb_from_audio_spec (frames : List AudioFrame) (preEx : Bool) (dir : String) :
    ((∃ p, (thumb_from_audio (some frames) preEx dir).1 = Except.ok (some p)) ↔
      ((thumb_from_audio (some frames) preEx dir).2 = true
        ∨ (frames.find? (fun f => hasAPIC f.key && f.data.isSome) = none ∧ preEx = true)))
    ∧ ((thumb_from_audio (some frames) preEx dir).2 = true ↔
      (∃ f a, frames.find? (fun f => hasAPIC f.key && f.data.isSome) = some f
        ∧ f.data = some a ∧ a.decodeOk = true)) := by
  have hloop := thumbFrameLoop_eq_find frames
  cases hf : frames.find? (fun f => hasAPIC f.key && f.data.isSome) with
  | none =>
    have hl2 : thumbFrameLoop frames = none := by rw [hloop, hf]; rfl
    have ht : thumb_from_audio (some frames) preEx dir =
        ((if preEx then Except.ok (some (dir ++ "/album_art.jpg")) else Except.ok none),
          false) := by
      simp only [thumb_from_audio, hl2]
    rw [ht]
    cases preEx <;> simp
  | some f =>
    have hdata : f.data.isSome = true := by
      have := List.find?_some hf
      simp only [Bool.and_eq_true] at this
      exact this.2
    obtain ⟨a, ha⟩ := Option.isSome_iff_exists.mp hdata
    have hl2 : thumbFrameLoop frames = some a := by rw [hloop, hf]; simp [ha]
    by_cases hdec : a.decodeOk = true
    · have ht : thumb_from_audio (some frames) preEx dir =
          (Except.ok (some (dir ++ "/album_art.jpg")), true) := by
        simp only [thumb_from_audio, hl2, hdec, if_true]
      rw [ht]
      refine ⟨by simp, ?_, ?_⟩
      · intro _
        exact ⟨f, a, rfl, ha, hdec⟩
      · intro _; rfl
    · have hdec2 : a.decodeOk = false := by
        simp only [Bool.not_eq_true] at hdec
        exact hdec
      have ht : thumb_from_audio (some frames) preEx dir =
          (Except.error PyErr.imageError, false) := by
        simp only [thumb_from_audio, hl2, hdec2]
        simp
      rw [ht]
      refine ⟨?_, ?_, ?_⟩
      · constructor
        · rintro ⟨p, hp⟩
          simp at hp
        · rintro (h | ⟨hn, _⟩)
          · simp at h
          · cases hn
      · intro h
        simp at h
      · rintro ⟨g, b, hg, hgb, hb⟩
        cases hg
        rw [ha] at hgb
        cases hgb
        rw [hdec2] at hb
        cases hb

/-- C8 counterexample: for an audio file whose tags parse but contain no
embedded picture (`frames = []`), with a stale `album_art.jpg` already in
the directory, `thumb_from_audio` returns that path even though nothing was
written from this file's tags (the `wrote` component is `false`) — the
claim says it must return nothing whenever the audio has no embedded
picture. -/
theorem thumb_from_audio_stale_art :
    thumb_from_audio (some []) true "/dl/key" =
      (Except.ok (some "/dl/key/album_art.jpg"), false) := rfl

/-! ## `find_media` -/

/-- The value stored under `info_dict[media_type]`: one path, or the list
of split-part paths. -/
inductive MediaPathVal where
  | single (p : PyPath)
  | multi (ps : List PyPath)
deriving DecidableEq, Repr

/-- The value stored under `info_dict["file_name"]`: one display name, or
the sorted list of part names. -/
inductive FileNameVal where
  | single (s : String)
  | multi (ss : List String)
deriving DecidableEq, Repr

/-- The `info_dict` accumulated by `find_media`, one optional field per
possible key (a `none` field stands for an absent key; the only key whose
value can itself be `None`, `thumb` after the album-art fallback, is
conflated with absence, which no later read distinguishes). -/
structure InfoDict where
  media : Option MediaPathVal
  fileName : Option FileNameVal
  isSplit : Option Bool
  thumb : Option String
  size : Option (Nat × Nat)
  realFile : Option String
  duration : Option Nat
  performer : Option String
  title : Option String
  width : Option Nat
  height : Option Nat
deriving DecidableEq, Repr

/-- The empty `info_dict = {}`. -/
def initInfoDict : InfoDict :=
  ⟨none, none, none, none, none, none, none, none, none, none, none⟩

/-- A directory entry as `iterdir` yields it: file name and byte size. -/
structure FileEntry where
  name : String
  size : Nat
deriving DecidableEq, Repr

/-- Modelled from the spec: the `ext` module (not under `src/`) defines
per-kind extension tuples used purely for classification by
`name.lower().endswith(...)`; the concrete tuples are kept abstract as
parameters. -/
structure Extensions where
  audio : List String
  video : List String
  photo : List String
deriving DecidableEq, Repr

/-- Result of `hachoir.extractMetadata(createParser(media))`: `none` when
parsing failed, otherwise the optional duration / artist / title fields. -/
structure HachoirMeta where
  duration : Option Nat
  artist : Option String
  title : Option String
deriving DecidableEq, Repr

/-- All external inputs of `find_media`: the extension sets, the ffmpeg
success and duration oracles for `split_video`, the hachoir metadata of the
chosen media file, the result of the `thumb_from_audio` fallback call, and
the PIL image size per photo file name. -/
structure FMArgs where
  ext : Extensions
  splitOk : Nat → Bool
  splitDur : Nat → Nat
  hachoir : Option HachoirMeta
  thumbAudio : Option String
  imgSize : String → Nat × Nat

/-- Python truthiness of `info_dict.get(media_type)`: absent and the empty
part list are falsy (a `Path` is always truthy). -/
def mediaTruthy : Option MediaPathVal → Bool
  | none => false
  | some (.single _) => true
  | some (.multi ps) => !ps.isEmpty

/-- Model of `functions.covert_to_jpg`: if the lowercased name already ends
with one of the first two photo extensions the path is returned as is;
otherwise the file is re-saved as `stem + ".jpeg"`.  Either way the image's
pixel size is returned. -/
def covert_to_jpg (photoExt : List String) (imgSize : String → Nat × Nat)
    (file : PyPath) : String × (Nat × Nat) :=
  let thumb_path :=
    if pyEndsWithAny (pyLower file.name) (photoExt.take 2) then pathStr file
    else pathStr ⟨file.dir, pyStem file.name ++ ".jpeg"⟩
  (thumb_path, imgSize file.name)

/-- The extension tuple `getattr(ext, media_type)` for a valid media type. -/
def extOf (e : Extensions) (mt : String) : List String :=
  if mt = "audio" then e.audio else e.video

/-- The media branch of the discovery loop body: sanitize the file name
(renaming on disk), record `real_file`, then either split (video above the
byte threshold) or record the single path. -/
def processMedia (args : FMArgs) (jobDir mt : String) (d : InfoDict)
    (f : FileEntry) : InfoDict × FileEntry :=
  let fpath := (unquote_filename ⟨jobDir, f.name⟩).path
  let d1 := { d with realFile := some (pathStr fpath) }
  if f.size > 2147000000 ∧ mt = "video" then
    let parts := split_video fpath f.size args.splitOk args.splitDur
    ({ d1 with
        media := some (.multi parts),
        fileName := some (.multi (pySortStrings (parts.map PyPath.name))),
        isSplit := some true },
      ⟨fpath.name, f.size⟩)
  else
    ({ d1 with
        media := some (.single fpath),
        fileName := some (.single fpath.name),
        isSplit := some false },
      ⟨fpath.name, f.size⟩)

/-- One iteration of the discovery loop: the media branch (guarded by
"no media yet, extension matches, size non-zero"), then the thumbnail
branch (guarded by "no thumb yet, photo extension matches" — against the
possibly renamed file of this same iteration). -/
def findLoopBody (args : FMArgs) (jobDir mt : String) (d : InfoDict)
    (f : FileEntry) : InfoDict :=
  let step :=
    if !(mediaTruthy d.media) && pyEndsWithAny (pyLower f.name) (extOf args.ext mt)
        && !(f.size == 0) then
      processMedia args jobDir mt d f
    else (d, f)
  if step.1.thumb.isNone && pyEndsWithAny (pyLower step.2.name) args.ext.photo then
    let tj := covert_to_jpg args.ext.photo args.imgSize ⟨jobDir, step.2.name⟩
    { step.1 with thumb := some tj.1, size := some tj.2 }
  else step.1

/-- The `for file in media_path.iterdir()` loop of `find_media`: run the
body on each entry in order and stop early once both the media key and the
thumbnail key are present. -/
def findLoop (args : FMArgs) (jobDir mt : String) :
    InfoDict → List FileEntry → InfoDict
  | d, [] => d
  | d, f :: fs =>
    let d2 := findLoopBody args jobDir mt d f
    if d2.media.isSome && d2.thumb.isSome then d2 else findLoop args jobDir mt d2 fs

/-- Post-loop enrichment shared by both kinds: duration from hachoir
metadata, when the parse succeeded and the field exists. -/
def setDuration (args : FMArgs) (d : InfoDict) : InfoDict :=
  match args.hachoir with
  | some m =>
    match m.duration with
    | some dur => { d with duration := some dur }
    | none => d
  | none => d

/-- Audio enrichment: drop `size`, add performer/title when present, and
fall back to `thumb_from_audio` when no thumbnail was found. -/
def enrichAudio (args : FMArgs) (m : HachoirMeta) (d : InfoDict) : InfoDict :=
  let d1 := { d with size := none }
  let d2 := match m.artist with
    | some a => { d1 with performer := some a }
    | none => d1
  let d3 := match m.title with
    | some t => { d2 with title := some t }
    | none => d2
  if d3.thumb.isNone then { d3 with thumb := args.thumbAudio } else d3

/-- Video enrichment: pop `size` (default `(1280, 720)`) into
width/height. -/
def enrichVideo (d : InfoDict) : InfoDict :=
  let wh := d.size.getD (1280, 720)
  { d with size := none, width := some wh.1, height := some wh.2 }

/-- Model of `Uploader.find_media`.  Raises `TypeError` for an invalid
media type and `FileNotFoundError` for a missing job directory; then runs
the discovery loop; then — faithfully to the source — evaluates
`info_dict.pop("real_file")`, which raises `KeyError` when no qualifying
media file was found.  With a media file present it enriches the dict by
kind and returns it; in the audio branch, `metadata.has("artist")` on a
failed hachoir parse raises `AttributeError`, again as in the source. -/
def find_media (args : FMArgs) (jobDir mt : String) (dirExists : Bool)
    (files : List FileEntry) : Except PyErr (Option InfoDict) :=
  if mt ≠ "video" ∧ mt ≠ "audio" then .error .typeError
  else if !dirExists then .error .fileNotFoundError
  else
    let d := findLoop args jobDir mt initInfoDict files
    match d.realFile with
    | none => .error .keyError
    | some media =>
      let d1 := { d with realFile := none }
      if media ≠ "" then
        let d2 := setDuration args d1
        if mt = "audio" then
          match args.hachoir with
          | none => .error .attributeError
          | some m => .ok (some (enrichAudio args m d2))
        else .ok (some (enrichVideo d2))
      else .ok none

/-- The `is_split` flag of a successful discovery, if any. -/
def splitFlagOf (r : Except PyErr (Option InfoDict)) : Option Bool :=
  match r with
  | .ok (some d) => d.isSplit
  | _ => none

/-- The `file_name` value of a successful discovery, if any. -/
def fileNamesOf (r : Except PyErr (Option InfoDict)) : Option FileNameVal :=
  match r with
  | .ok (some d) => d.fileName
  | _ => none

/-- Concrete extension sets for witnesses and counterexamples. -/
def sampleExt : Extensions :=
  ⟨[".mp3", ".m4a"], [".mkv", ".mp4", ".webm"], [".jpg", ".jpeg", ".png"]⟩

/-- Concrete oracles: every split part succeeds, hachoir parse failed. -/
def sampleArgs : FMArgs :=
  ⟨sampleExt, fun _ => true, fun _ => 0, none, none, fun _ => (640, 480)⟩

/-! ## `Uploader.upload` and `__upload_video` -/

/-- The batching loop of `__upload_video`, verbatim from the source: append
each item to `child_up` and flush `child_up` into `uploads` only when its
length reaches exactly 10.  The trailing partial batch is never flushed
(the fold's final `child` is discarded), exactly as in the code. -/
def batchTen {α : Type} (l : List α) : List (List α) :=
  (l.foldl
    (fun (acc : List (List α) × List α) x =>
      let child := acc.2 ++ [x]
      if child.length = 10 then (acc.1 ++ [child], []) else (acc.1, child))
    ([], [])).1

/-- Model of Python `enumerate(l, start)`. -/
def pyEnumerate {α : Type} (start : Nat) : List α → List (Nat × α)
  | [] => []
  | x :: xs => (start, x) :: pyEnumerate (start + 1) xs

/-- Observable effects of one `upload` invocation.  `sentParts` lists the
display names handed to the transport's send calls, in order;
`mediaGroups` the batches passed to `reply_media_group`; `finalLines` the
`(index, name)` caption lines of the final status edit; the booleans record
the pre-loop "File is Splitted" edit, the final caption edit, the final
`edit_media` replacement, and whether the job directory was removed. -/
structure UploadTrace where
  preSplitEdit : Bool
  sentParts : List String
  mediaGroups : List (List String)
  finalLines : List (Nat × String)
  finalCaptionEdit : Bool
  editMediaFinal : Bool
  dirRemoved : Bool
deriving DecidableEq, Repr

/-- The trace of an invocation that performed nothing. -/
def emptyTrace : UploadTrace := ⟨false, [], [], [], false, false, false⟩

/-- Model of `Uploader.__upload_video`.  In the split branch every part is
sent (the loop itself never polls cancellation); `process.is_cancelled` is
the flag's value at the single check before finalization.  When not
cancelled, the sent results are batched with `batchTen` and the caption
lines enumerate each reply group's messages starting from 1 again
(`enumerate(new_msg, start=1)` per group).  The transport is modelled as
acknowledging every send and echoing each media group item-per-item. -/
def uploadVideoModel (d : InfoDict) (cancelled : Bool) : UploadTrace :=
  if d.isSplit.getD false then
    let videos := match d.media with
      | some (.multi ps) => ps
      | _ => []
    let names := match d.fileName with
      | some (.multi ns) => ns
      | _ => []
    let sent := (videos.zip names).map Prod.snd
    if sent.isEmpty then { emptyTrace with preSplitEdit := true }
    else if cancelled then { emptyTrace with preSplitEdit := true, sentParts := sent }
    else
      let uploads := batchTen sent
      { emptyTrace with
          preSplitEdit := true,
          sentParts := sent,
          mediaGroups := uploads,
          finalLines := uploads.flatMap (fun g => pyEnumerate 1 g),
          finalCaptionEdit := true }
  else
    let nm := match d.fileName with
      | some (.single s) => s
      | _ => ""
    if cancelled then { emptyTrace with sentParts := [nm] }
    else { emptyTrace with sentParts := [nm], editMediaFinal := true }

/-- Model of `Uploader.__upload_audio`: one send, then an `edit_media`
replacement unless cancelled. -/
def uploadAudioModel (d : InfoDict) (cancelled : Bool) : UploadTrace :=
  let nm := match d.fileName with
    | some (.single s) => s
    | _ => ""
  if cancelled then { emptyTrace with sentParts := [nm] }
  else { emptyTrace with sentParts := [nm], editMediaFinal := true }

/-- Model of `Uploader.upload`.  A discovery exception propagates before
the `try` block is entered, so nothing is sent, edited or removed; a falsy
discovery returns early the same way.  Otherwise the kind-specific upload
runs and — in the `finally` block, regardless of success or cancellation —
the job directory is removed whenever `delete_file_after_upload` is set. -/
def upload (args : FMArgs) (jobDir mt : String) (dirExists : Bool)
    (files : List FileEntry) (deleteAfter cancelled : Bool) :
    Except PyErr (Option UploadTrace) :=
  match find_media args jobDir mt dirExists files with
  | .error e => .error e
  | .ok none => .ok none
  | .ok (some d) =>
    let t := if mt = "video" then uploadVideoModel d cancelled
      else uploadAudioModel d cancelled
    .ok (some { t with dirRemoved := deleteAfter })

/-- The effects actually performed by an invocation: an exception or a
falsy discovery leaves the empty trace. -/
def effectsOf (r : Except PyErr (Option UploadTrace)) : UploadTrace :=
  match r with
  | .ok (some t) => t
  | _ => emptyTrace

/-! ### Field-tracking lemmas for the discovery pipeline -/

theorem pathStr_eq_empty_iff (p : PyPath) : pathStr p = "" ↔ False := by
  constructor
  · intro h
    have hd := congrArg String.data h
    simp only [pathStr, pathKey] at hd
    have : p.dir.data ++ '/' :: p.name.data = [] := hd
    simp at this
  · intro h
    exact h.elim

theorem processMedia_fields (args : FMArgs) (jobDir mt : String) (d : InfoDict)
    (f : FileEntry) :
    (processMedia args jobDir mt d f).1.performer = d.performer
    ∧ (processMedia args jobDir mt d f).1.title = d.title
    ∧ (processMedia args jobDir mt d f).1.width = d.width
    ∧ (processMedia args jobDir mt d f).1.height = d.height
    ∧ (processMedia args jobDir mt d f).1.thumb = d.thumb
    ∧ (processMedia args jobDir mt d f).1.duration = d.duration := by
  unfold processMedia
  dsimp only
  split_ifs <;> exact ⟨rfl, rfl, rfl, rfl, rfl, rfl⟩

theorem findLoopBody_fields (args : FMArgs) (jobDir mt : String) (d : InfoDict)
    (f : FileEntry) :
    (findLoopBody args jobDir mt d f).performer = d.performer
    ∧ (findLoopBody args jobDir mt d f).title = d.title
    ∧ (findLoopBody args jobDir mt d f).width = d.width
    ∧ (findLoopBody args jobDir mt d f).height = d.height := by
  have hp := processMedia_fields args jobDir mt d f
  unfold findLoopBody
  dsimp only
  split_ifs <;>
    first
      | exact ⟨hp.1, hp.2.1, hp.2.2.1, hp.2.2.2.1⟩
      | exact ⟨rfl, rfl, rfl, rfl⟩

theorem findLoop_fields (args : FMArgs) (jobDir mt : String) :
    ∀ (files : List FileEntry) (d : InfoDict),
      (findLoop args jobDir mt d files).performer = d.performer
      ∧ (findLoop args jobDir mt d files).title = d.title
      ∧ (findLoop args jobDir mt d files).width = d.width
      ∧ (findLoop args jobDir mt d files).height = d.height := by
  intro files
  induction files with
  | nil => intro d; exact ⟨rfl, rfl, rfl, rfl⟩
  | cons f fs ih =>
    intro d
    have hb := findLoopBody_fields args jobDir mt d f
    unfold findLoop
    dsimp only
    by_cases hbrk : ((findLoopBody args jobDir mt d f).media.isSome
        && (findLoopBody args jobDir mt d f).thumb.isSome) = true
    · rw [if_pos hbrk]
      exact hb
    · rw [if_neg hbrk]
      have hr := ih (findLoopBody args jobDir mt d f)
      exact ⟨hr.1.trans hb.1, hr.2.1.trans hb.2.1, hr.2.2.1.trans hb.2.2.1,
        hr.2.2.2.trans hb.2.2.2⟩

theorem setDuration_fields (args : FMArgs) (d : InfoDict) :
    (setDuration args d).performer = d.performer
    ∧ (setDuration args d).title = d.title
    ∧ (setDuration args d).width = d.width
    ∧ (setDuration args d).height = d.height
    ∧ (setDuration args d).isSplit = d.isSplit
    ∧ (setDuration args d).fileName = d.fileName := by
  unfold setDuration
  repeat' split
  all_goals exact ⟨rfl, rfl, rfl, rfl, rfl, rfl⟩

theorem enrichAudio_fields (args : FMArgs) (m : HachoirMeta) (d : InfoDict) :
    (enrichAudio args m d).width = d.width
    ∧ (enrichAudio args m d).height = d.height
    ∧ (enrichAudio args m d).isSplit = d.isSplit
    ∧ (enrichAudio args m d).fileName = d.fileName := by
  unfold enrichAudio
  dsimp only
  repeat' split
  all_goals exact ⟨rfl, rfl, rfl, rfl⟩

theorem enrichVideo_fields (d : InfoDict) :
    (enrichVideo d).performer = d.performer
    ∧ (enrichVideo d).title = d.title
    ∧ (enrichVideo d).isSplit = d.isSplit
    ∧ (enrichVideo d).fileName = d.fileName := ⟨rfl, rfl, rfl, rfl⟩

/-- C9: a descriptor produced by discovery never has both performer/title
and width/height populated: the discovery loop sets neither group, the
audio enrichment adds only performer/title, and the video enrichment adds
only width/height. -/
theorem find_media_kind_exclusive (args : FMArgs) (jobDir mt : String)
    (dirExists : Bool) (files : List FileEntry) (d : InfoDict)
    (hfind : find_media args jobDir mt dirExists files = .ok (some d)) :
    ¬((d.performer ≠ none ∨ d.title ≠ none) ∧ (d.width ≠ none ∨ d.height ≠ none)) := by
  unfold find_media at hfind
  by_cases hmt : mt ≠ "video" ∧ mt ≠ "audio"
  · rw [if_pos hmt] at hfind
    cases hfind
  · rw [if_neg hmt] at hfind
    cases dirExists with
    | false => simp at hfind
    | true =>
      simp only [Bool.not_true, Bool.false_eq_true, if_false] at hfind
      have hloop := findLoop_fields args jobDir mt files initInfoDict
      cases hreal : (findLoop args jobDir mt initInfoDict files).realFile with
      | none =>
        rw [hreal] at hfind
        simp at hfind
      | some media =>
        rw [hreal] at hfind
        dsimp only at hfind
        by_cases hm : media ≠ ""
        · rw [if_pos hm] at hfind
          by_cases haud : mt = "audio"
          · rw [if_pos haud] at hfind
            cases hh : args.hachoir with
            | none => rw [hh] at hfind; cases hfind
            | some m =>
              rw [hh] at hfind
              dsimp only at hfind
              simp only [Except.ok.injEq, Option.some.injEq] at hfind
              subst hfind
              have hW : (enrichAudio args m (setDuration args
                  { findLoop args jobDir mt initInfoDict files with realFile := none })).width
                  = none :=
                ((enrichAudio_fields args m _).1.trans
                  ((setDuration_fields args _).2.2.1.trans hloop.2.2.1))
              have hH : (enrichAudio args m (setDuration args
                  { findLoop args jobDir mt initInfoDict files with realFile := none })).height
                  = none :=
                ((enrichAudio_fields args m _).2.1.trans
                  ((setDuration_fields args _).2.2.2.1.trans hloop.2.2.2))
              intro hc
              rcases hc.2 with h | h
              · exact h hW
              · exact h hH
          · rw [if_neg haud] at hfind
            simp only [Except.ok.injEq, Option.some.injEq] at hfind
            subst hfind
            have hP : (enrichVideo (setDuration args
                { findLoop args jobDir mt initInfoDict files with realFile := none })).performer
                = none :=
              ((enrichVideo_fields _).1.trans
                ((setDuration_fields args _).1.trans hloop.1))
            have hT : (enrichVideo (setDuration args
                { findLoop args jobDir mt initInfoDict files with realFile := none })).title
                = none :=
              ((enrichVideo_fields _).2.1.trans
                ((setDuration_fields args _).2.1.trans hloop.2.1))
            intro hc
            rcases hc.1 with h | h
            · exact h hP
            · exact h hT
        · rw [if_neg hm] at hfind
          cases hfind

/-- Concrete oracles with a successful hachoir parse, for audio inputs. -/
def audioArgs : FMArgs :=
  ⟨sampleExt, fun _ => true, fun _ => 0, some ⟨some 180, some "Artist", some "Song"⟩,
    none, fun _ => (640, 480)⟩

/-- The descriptor discovery returns for `song.mp3` under `audioArgs`. -/
def audioSampleDict : InfoDict :=
  ⟨some (.single ⟨"/dl/k", "song.mp3"⟩), some (.single "song.mp3"), some false,
    none, none, none, some 180, some "Artist", some "Song", none, none⟩

/-- Witness for C9 at a concrete audio discovery. -/
theorem find_media_kind_exclusive_witness :
    ¬((audioSampleDict.performer ≠ none ∨ audioSampleDict.title ≠ none)
      ∧ (audioSampleDict.width ≠ none ∨ audioSampleDict.height ≠ none)) :=
  find_media_kind_exclusive audioArgs "/dl/k" "audio" true [⟨"song.mp3", 999⟩]
    audioSampleDict rfl

/-- C2 (amended): for a job directory holding one qualifying video file of
size `S`, discovery marks it for splitting iff `S` strictly exceeds the
*discovery* threshold of `2147000000` bytes (not the 1.5 GiB `splitSize`);
and whenever it does split with `2147000000 < S ≤ 2·splitSize`, exactly two
candidate parts are attempted (`partsCount S = 2`). -/
theorem find_media_split_threshold (args : FMArgs) (jobDir name : String) (S : Nat)
    (hq : pyEndsWithAny (pyLower name) args.ext.video = true) (hS : S ≠ 0) :
    splitFlagOf (find_media args jobDir "video" true [⟨name, S⟩])
      = some (decide (2147000000 < S))
    ∧ (2147000000 < S → S ≤ 2 * splitSize → partsCount S = 2) := by
  constructor
  · have hhit : (!(mediaTruthy initInfoDict.media)
        && pyEndsWithAny (pyLower (⟨name, S⟩ : FileEntry).name) (extOf args.ext "video")
        && !((⟨name, S⟩ : FileEntry).size == 0)) = true := by
      simp [mediaTruthy, initInfoDict, extOf, hq, hS]
    have hB1 : (findLoopBody args jobDir "video" initInfoDict ⟨name, S⟩).isSplit
        = some (decide (2147000000 < S)) := by
      unfold findLoopBody
      dsimp only
      rw [if_pos hhit]
      have hPM : (processMedia args jobDir "video" initInfoDict ⟨name, S⟩).1.isSplit
          = some (decide (2147000000 < S)) := by
        unfold processMedia
        dsimp only
        split_ifs with h
        · simp [h.1]
        · have hns : ¬(2147000000 < S) := fun ha => h ⟨ha, rfl⟩
          simp [hns]
      split_ifs <;> exact hPM
    have hB2 : (findLoopBody args jobDir "video" initInfoDict ⟨name, S⟩).realFile
        = some (pathStr ⟨jobDir, removeQuotes name⟩) := by
      unfold findLoopBody
      dsimp only
      rw [if_pos hhit]
      have hPM : (processMedia args jobDir "video" initInfoDict ⟨name, S⟩).1.realFile
          = some (pathStr ⟨jobDir, removeQuotes name⟩) := by
        unfold processMedia
        simp only [unquote_filename_path]
        split_ifs <;> rfl
      split_ifs <;> exact hPM
    have hL : findLoop args jobDir "video" initInfoDict [⟨name, S⟩]
        = findLoopBody args jobDir "video" initInfoDict ⟨name, S⟩ := by
      unfold findLoop
      dsimp only
      split_ifs <;> rfl
    unfold find_media
    rw [if_neg (by simp : ¬(("video" : String) ≠ "video" ∧ ("video" : String) ≠ "audio"))]
    simp only [Bool.not_true, Bool.false_eq_true, if_false]
    rw [hL, hB2]
    dsimp only
    rw [if_pos (by simp [pathStr_eq_empty_iff] :
      pathStr (⟨jobDir, removeQuotes name⟩ : PyPath) ≠ "")]
    rw [if_neg (by simp : ¬(("video" : String) = "audio"))]
    simp only [splitFlagOf]
    rw [(enrichVideo_fields _).2.2.1, (setDuration_fields args _).2.2.2.2.1]
    exact hB1
  · intro h1 h2
    have h2s : S ≤ 2 * 1610612736 := h2
    show (S + (1610612736 - 1)) / 1610612736 = 2
    omega

/-- C2 counterexample: a 2 000 000 000-byte video strictly exceeds the
claimed 1.5 GiB threshold (`splitSize = 1610612736`) and satisfies
`2·T ≥ S > T`, yet discovery does **not** split it (`is_split = false`):
the code's splitting trigger is `S > 2147000000`, not `S > 1.5 GiB`. -/
theorem find_media_split_threshold_cx :
    splitFlagOf (find_media sampleArgs "/dl/k" "video" true [⟨"movie.mkv", 2000000000⟩])
      = some false
    ∧ splitSize < 2000000000 ∧ 2000000000 ≤ 2 * splitSize :=
  ⟨rfl, by decide, by decide⟩

/-- Witness for C2 (amended) at the exact discovery threshold: a file of
exactly 2147000000 bytes is not split. -/
theorem find_media_split_threshold_witness :
    splitFlagOf (find_media sampleArgs "/dl/k" "video" true [⟨"movie.mkv", 2147000000⟩])
      = some (decide (2147000000 < 2147000000)) :=
  (find_media_split_threshold sampleArgs "/dl/k" "movie.mkv" 2147000000
    (by decide) (by decide)).1

/-! ## C5: the `is_split` / part-list consistency invariant -/

theorem split_video_length_all_ok (file : PyPath) (S : Nat) (ok : Nat → Bool)
    (durOf : Nat → Nat) (hok : ∀ i, ok i = true) :
    (split_video file S ok durOf).length = partsCount S := by
  unfold split_video pySortPaths
  rw [splitLoop_eq, List.nil_append]
  simp only [List.length_insertionSort, List.length_map]
  rw [List.filter_eq_self.mpr (fun i _ => hok i)]
  simp

/-- Consistency invariant between the `is_split` flag and the shape of the
media / `file_name` values, as maintained by the discovery loop when every
split part succeeds. -/
def SplitInv (d : InfoDict) : Prop :=
  (d.realFile = none ∧ d.isSplit = none ∧ d.fileName = none ∧ d.media = none)
  ∨ (d.isSplit = some true ∧ (∃ ps : List PyPath, d.media = some (.multi ps))
      ∧ (∃ ns : List String, d.fileName = some (.multi ns) ∧ 1 < ns.length))
  ∨ (d.isSplit = some false ∧ (∃ p, d.media = some (.single p))
      ∧ (∃ s, d.fileName = some (.single s)))

theorem processMedia_splitInv (args : FMArgs) (jobDir mt : String) (d : InfoDict)
    (f : FileEntry) (hok : ∀ i, args.splitOk i = true) :
    SplitInv (processMedia args jobDir mt d f).1 := by
  unfold processMedia
  dsimp only
  split_ifs with h
  · right; left
    refine ⟨rfl, ⟨_, rfl⟩, ⟨_, rfl, ?_⟩⟩
    show 1 < (pySortStrings
      ((split_video _ f.size args.splitOk args.splitDur).map PyPath.name)).length
    unfold pySortStrings
    simp only [List.length_insertionSort, List.length_map]
    rw [split_video_length_all_ok _ _ _ _ hok]
    show 1 < (f.size + (1610612736 - 1)) / 1610612736
    have := h.1
    omega
  · right; right
    exact ⟨rfl, ⟨_, rfl⟩, ⟨_, rfl⟩⟩

theorem findLoopBody_splitInv (args : FMArgs) (jobDir mt : String) (d : InfoDict)
    (f : FileEntry) (hok : ∀ i, args.splitOk i = true) (hd : SplitInv d) :
    SplitInv (findLoopBody args jobDir mt d f) := by
  have hpm := processMedia_splitInv args jobDir mt d f hok
  unfold findLoopBody
  dsimp only
  split_ifs <;> first | exact hpm | exact hd

theorem findLoop_splitInv (args : FMArgs) (jobDir mt : String)
    (hok : ∀ i, args.splitOk i = true) :
    ∀ (files : List FileEntry) (d : InfoDict), SplitInv d →
      SplitInv (findLoop args jobDir mt d files) := by
  intro files
  induction files with
  | nil => intro d hd; exact hd
  | cons f fs ih =>
    intro d hd
    have hb := findLoopBody_splitInv args jobDir mt d f hok hd
    unfold findLoop
    dsimp only
    split_ifs
    · exact hb
    · exact ih _ hb

/-- C5 (amended): provided every attempted split part succeeds, a descriptor
returned by discovery has `is_split = true` iff its `file_name` value is a
part list of length greater than one (and `is_split = false` corresponds to
the single-name shape, by the invariant's remaining case). -/
theorem find_media_isSplit_iff (args : FMArgs) (jobDir mt : String)
    (dirExists : Bool) (files : List FileEntry) (d : InfoDict)
    (hok : ∀ i, args.splitOk i = true)
    (hfind : find_media args jobDir mt dirExists files = .ok (some d)) :
    (d.isSplit = some true ↔ ∃ ns, d.fileName = some (.multi ns) ∧ 1 < ns.length) := by
  unfold find_media at hfind
  by_cases hmt : mt ≠ "video" ∧ mt ≠ "audio"
  · rw [if_pos hmt] at hfind; cases hfind
  · rw [if_neg hmt] at hfind
    cases dirExists with
    | false => simp at hfind
    | true =>
      simp only [Bool.not_true, Bool.false_eq_true, if_false] at hfind
      have hinv : SplitInv (findLoop args jobDir mt initInfoDict files) :=
        findLoop_splitInv args jobDir mt hok files initInfoDict
          (Or.inl ⟨rfl, rfl, rfl, rfl⟩)
      cases hreal : (findLoop args jobDir mt initInfoDict files).realFile with
      | none => rw [hreal] at hfind; simp at hfind
      | some media =>
        rw [hreal] at hfind
        dsimp only at hfind
        by_cases hm : media ≠ ""
        · rw [if_pos hm] at hfind
          have key : d.isSplit = (findLoop args jobDir mt initInfoDict files).isSplit
              ∧ d.fileName = (findLoop args jobDir mt initInfoDict files).fileName := by
            by_cases haud : mt = "audio"
            · rw [if_pos haud] at hfind
              cases hh : args.hachoir with
              | none => rw [hh] at hfind; cases hfind
              | some m =>
                rw [hh] at hfind
                dsimp only at hfind
                simp only [Except.ok.injEq, Option.some.injEq] at hfind
                subst hfind
                exact ⟨(enrichAudio_fields args m _).2.2.1.trans
                    ((setDuration_fields args _).2.2.2.2.1),
                  (enrichAudio_fields args m _).2.2.2.trans
                    ((setDuration_fields args _).2.2.2.2.2)⟩
            · rw [if_neg haud] at hfind
              simp only [Except.ok.injEq, Option.some.injEq] at hfind
              subst hfind
              exact ⟨(enrichVideo_fields _).2.2.1.trans
                  ((setDuration_fields args _).2.2.2.2.1),
                (enrichVideo_fields _).2.2.2.trans
                  ((setDuration_fields args _).2.2.2.2.2)⟩
          rcases hinv with ⟨h1, _, _, _⟩ | ⟨h1, _, h3⟩ | ⟨h1, _, h3⟩
          · rw [hreal] at h1; simp at h1
          · rw [key.1, key.2, h1]
            constructor
            · intro _; exact h3
            · intro _; rfl
          · rw [key.1, key.2, h1]
            constructor
            · intro hcontra; simp at hcontra
            · rintro ⟨ns, hns, _⟩
              obtain ⟨s, hs⟩ := h3
              rw [hs] at hns
              simp at hns
        · rw [if_neg hm] at hfind; cases hfind

/-- Oracles under which split part 1 fails and part 2 succeeds. -/
def failSplitArgs : FMArgs :=
  ⟨sampleExt, fun i => i == 2, fun _ => 0, none, none, fun _ => (640, 480)⟩

/-- C5 counterexample: with part 1 of 2 failing to transcode, a
3 000 000 000-byte video yields a descriptor with `is_split = true` whose
part-name list has length **1** — the claimed invariant
"`isSplit` iff more than one part path" does not hold unconditionally. -/
theorem find_media_isSplit_cx :
    splitFlagOf (find_media failSplitArgs "/dl/k" "video" true
        [⟨"movie.mkv", 3000000000⟩]) = some true
    ∧ fileNamesOf (find_media failSplitArgs "/dl/k" "video" true
        [⟨"movie.mkv", 3000000000⟩]) = some (.multi ["movie.part002.mkv"]) :=
  ⟨rfl, rfl⟩

/-- The descriptor discovery returns for an oversized `movie.mkv` when all
split parts succeed. -/
def videoSplitDict : InfoDict :=
  ⟨some (.multi [⟨"/dl/k", "movie.part001.mkv"⟩, ⟨"/dl/k", "movie.part002.mkv"⟩]),
    some (.multi ["movie.part001.mkv", "movie.part002.mkv"]), some true,
    none, none, none, none, none, none, some 1280, some 720⟩

/-- Witness for C5 (amended) at a concrete all-success split discovery. -/
theorem find_media_isSplit_iff_witness :
    videoSplitDict.isSplit = some true ↔
      ∃ ns, videoSplitDict.fileName = some (.multi ns) ∧ 1 < ns.length :=
  find_media_isSplit_iff sampleArgs "/dl/k" "video" true [⟨"movie.mkv", 3000000000⟩]
    videoSplitDict (fun _ => rfl) rfl

/-! ## C1, C3, C4, C10: upload orchestration claims -/

/-- C1 (code bug): for an existing job directory with zero files matching
the requested kind — empty, or holding only a thumbnail — `find_media` does
not return a "nothing found" value: `info_dict.pop("real_file")` raises
`KeyError`, and `upload` propagates it instead of completing as a no-op. -/
theorem find_media_nothing_found_keyerror :
    find_media sampleArgs "/dl/k" "video" true [] = .error .keyError
    ∧ find_media sampleArgs "/dl/k" "video" true [⟨"cover.jpg", 512⟩] = .error .keyError
    ∧ upload sampleArgs "/dl/k" "video" true [] false false = .error .keyError :=
  ⟨rfl, rfl, rfl⟩

/-- C3 (code bug): for a non-cancelled split upload of 3 sent parts, the
batching loop — which flushes a batch only when it reaches exactly 10
items and never flushes the trailing partial batch — produces **zero**
media groups and an empty part enumeration, although the final caption
edit still happens; and with 20 parts the per-group enumeration restarts
at 1 for the second group instead of counting 11..20. -/
theorem upload_split_batching_dropped :
    (effectsOf (upload sampleArgs "/dl/k" "video" true [⟨"movie.mkv", 4000000000⟩]
        false false)).sentParts
      = ["movie.part001.mkv", "movie.part002.mkv", "movie.part003.mkv"]
    ∧ (effectsOf (upload sampleArgs "/dl/k" "video" true [⟨"movie.mkv", 4000000000⟩]
        false false)).mediaGroups = []
    ∧ (effectsOf (upload sampleArgs "/dl/k" "video" true [⟨"movie.mkv", 4000000000⟩]
        false false)).finalLines = []
    ∧ (effectsOf (upload sampleArgs "/dl/k" "video" true [⟨"movie.mkv", 4000000000⟩]
        false false)).finalCaptionEdit = true
    ∧ ((effectsOf (upload sampleArgs "/dl/k" "video" true [⟨"movie.mkv", 31000000000⟩]
        false false)).finalLines).map Prod.fst
      = [1, 2, 3, 4, 5, 6, 7, 8, 9, 10, 1, 2, 3, 4, 5, 6, 7, 8, 9, 10] :=
  ⟨rfl, rfl, rfl, rfl, rfl⟩

theorem uploadVideoModel_cancelled (d : InfoDict) :
    (uploadVideoModel d true).mediaGroups = []
    ∧ (uploadVideoModel d true).finalLines = []
    ∧ (uploadVideoModel d true).finalCaptionEdit = false
    ∧ (uploadVideoModel d true).editMediaFinal = false
    ∧ (uploadVideoModel d true).dirRemoved = false := by
  unfold uploadVideoModel
  dsimp only
  split_ifs <;> first | exact ⟨rfl, rfl, rfl, rfl, rfl⟩ | simp_all

theorem uploadAudioModel_cancelled (d : InfoDict) :
    (uploadAudioModel d true).mediaGroups = []
    ∧ (uploadAudioModel d true).finalLines = []
    ∧ (uploadAudioModel d true).finalCaptionEdit = false
    ∧ (uploadAudioModel d true).editMediaFinal = false
    ∧ (uploadAudioModel d true).dirRemoved = false := by
  unfold uploadAudioModel
  dsimp only
  exact ⟨rfl, rfl, rfl, rfl, rfl⟩

/-- C4 (amended): when the cancellation flag is observed true, already-sent
parts stay in the trace, no media-group replies, caption edits or media
replacements are attempted — but the job-directory cleanup, sitting in the
`finally` block, still runs exactly when the retention policy requests
deletion (`dirRemoved = delA`), rather than being suppressed. -/
theorem upload_cancelled_no_more_edits (args : FMArgs) (jobDir mt : String)
    (dirExists : Bool) (files : List FileEntry) (delA : Bool) (t : UploadTrace)
    (h : upload args jobDir mt dirExists files delA true = .ok (some t)) :
    t.mediaGroups = [] ∧ t.finalLines = [] ∧ t.finalCaptionEdit = false
    ∧ t.editMediaFinal = false ∧ t.dirRemoved = delA := by
  unfold upload at h
  cases hf : find_media args jobDir mt dirExists files with
  | error e => rw [hf] at h; simp at h
  | ok o =>
    cases o with
    | none => rw [hf] at h; simp at h
    | some d =>
      rw [hf] at h
      dsimp only at h
      simp only [Except.ok.injEq, Option.some.injEq] at h
      subst h
      by_cases hv : mt = "video"
      · rw [if_pos hv]
        have hu := uploadVideoModel_cancelled d
        exact ⟨hu.1, hu.2.1, hu.2.2.1, hu.2.2.2.1, rfl⟩
      · rw [if_neg hv]
        have hu := uploadAudioModel_cancelled d
        exact ⟨hu.1, hu.2.1, hu.2.2.1, hu.2.2.2.1, rfl⟩

/-- C4 counterexample: a cancelled split upload (2 parts already sent) with
retention requesting deletion **does** remove the job directory — the
`finally` block runs regardless of cancellation, against the claim that
cleanup is not triggered. -/
theorem upload_cancelled_cleanup_cx :
    (effectsOf (upload sampleArgs "/dl/k" "video" true [⟨"movie.mkv", 3000000000⟩]
        true true)).sentParts = ["movie.part001.mkv", "movie.part002.mkv"]
    ∧ (effectsOf (upload sampleArgs "/dl/k" "video" true [⟨"movie.mkv", 3000000000⟩]
        true true)).dirRemoved = true :=
  ⟨rfl, rfl⟩

/-- The trace of the concrete cancelled split upload used as C4 witness. -/
def cancelTrace : UploadTrace :=
  ⟨true, ["movie.part001.mkv", "movie.part002.mkv"], [], [], false, false, true⟩

/-- Witness for C4 (amended) at the concrete cancelled split upload. -/
theorem upload_cancelled_no_more_edits_witness :
    cancelTrace.mediaGroups = [] ∧ cancelTrace.finalLines = []
    ∧ cancelTrace.finalCaptionEdit = false ∧ cancelTrace.editMediaFinal = false
    ∧ cancelTrace.dirRemoved = true :=
  upload_cancelled_no_more_edits sampleArgs "/dl/k" "video" true
    [⟨"movie.mkv", 3000000000⟩] true cancelTrace rfl

/-- C10: when discovery fails with an error (invalid media kind, missing
job directory — or the `KeyError` of C1), `upload` re-raises it from before
its `try` block: nothing is sent, no message is edited, and the job
directory is not removed even when the retention policy requests deletion. -/
theorem upload_discovery_error_no_effects (args : FMArgs) (jobDir mt : String)
    (dirExists : Bool) (files : List FileEntry) (delA canc : Bool) (e : PyErr)
    (h : find_media args jobDir mt dirExists files = .error e) :
    upload args jobDir mt dirExists files delA canc = .error e
    ∧ effectsOf (upload args jobDir mt dirExists files delA canc) = emptyTrace := by
  unfold upload
  rw [h]
  exact ⟨rfl, rfl⟩

/-- Witness for C10 with an invalid media kind and deletion requested. -/
theorem upload_discovery_error_no_effects_witness :
    upload sampleArgs "/dl/k" "document" true [] true false = .error .typeError
    ∧ effectsOf (upload sampleArgs "/dl/k" "document" true [] true false) = emptyTrace :=
  upload_discovery_error_no_effects sampleArgs "/dl/k" "document" true [] true false
    .typeError rfl
